import Mathlib

/-!
Verification of the quota-gated, resilient CV-analysis pipeline of
`petrolink-api` (`src/services/publicCvService.js` and its source variants,
`src/services/deepseekService.js` variants in `src/unnamed/part_006` /
`part_007`, and the earlier `publicCvService.js` variant in
`src/unnamed/part_010`).

The JavaScript is embedded shallowly:
  * strings are `String` / `List Char`; JS `.length` (UTF-16 units) is
    `jsLength`; JS `substring(0, n)` on code points below 0x10000 is `takeStr`;
  * JS numbers are `Nat`/`Int`/`Rat` as appropriate (all numbers appearing in
    these code paths are integers or finite decimal JSON numbers);
  * the external Supabase store and the DeepSeek provider are modelled as
    explicit outcome values handed to the embedded functions; `async` code
    is a pure function of those outcomes, and for the concurrency claim the
    `await` boundaries become atomic steps of a scheduler;
  * `Map` state is threaded explicitly as a function from keys.
-/

/- ------------------------------------------------------------------ -/
/- Section 1: JS string primitives                                     -/
/- ------------------------------------------------------------------ -/

/-- The JS whitespace set: `String.prototype.trim` strips these and the regex
class `\s` matches exactly these (WhiteSpace ∪ LineTerminator). -/
def isJSWS (c : Char) : Bool :=
  c.toNat = 9 || c.toNat = 10 || c.toNat = 11 || c.toNat = 12 || c.toNat = 13 ||
  c.toNat = 32 || c.toNat = 0xa0 || c.toNat = 0x1680 ||
  (0x2000 ≤ c.toNat && c.toNat ≤ 0x200a) ||
  c.toNat = 0x2028 || c.toNat = 0x2029 || c.toNat = 0x202f ||
  c.toNat = 0x205f || c.toNat = 0x3000 || c.toNat = 0xfeff

/-- Drop the leading run of JS whitespace. -/
def jsTrimL (l : List Char) : List Char := l.dropWhile isJSWS

/-- Drop the trailing run of JS whitespace. -/
def jsTrimR (l : List Char) : List Char := (l.reverse.dropWhile isJSWS).reverse

/-- JS `String.prototype.trim` on a character list. -/
def jsTrim (l : List Char) : List Char := jsTrimR (jsTrimL l)

/-- JS `String.prototype.trim`. -/
def jsTrimStr (s : String) : String := String.mk (jsTrim s.data)

/-- ASCII lowering; agrees with JS `toLowerCase` on all characters used by the
code and the claims (the services compare against ASCII keywords only). -/
def lowChar (c : Char) : Char :=
  if 'A' ≤ c && c ≤ 'Z' then Char.ofNat (c.toNat + 32) else c

/-- JS `String.prototype.toLowerCase` (ASCII fragment). -/
def jsLower (s : String) : String := String.mk (s.data.map lowChar)

/-- Does the second list start with the first one? -/
def leadMatch : List Char → List Char → Bool
  | [], _ => true
  | _ :: _, [] => false
  | a :: as, b :: bs => a = b && leadMatch as bs

/-- Does the list contain the first list as a contiguous run?  This is JS
`String.prototype.includes` on the underlying characters. -/
def hasSubstr (sub : List Char) : List Char → Bool
  | [] => sub.isEmpty
  | c :: r => leadMatch sub (c :: r) || hasSubstr sub r

/-- JS `s.includes(sub)`. -/
def jsIncludes (s sub : String) : Bool := hasSubstr sub.data s.data

/-- JS `s.substring(0, n)` (all strings taken here are ASCII hex digests, so
UTF-16 units coincide with characters). -/
def takeStr (n : Nat) (s : String) : String := String.mk (s.data.take n)

/-- JS `s.length`: the number of UTF-16 code units. -/
def jsLength (s : String) : Nat :=
  (s.data.map (fun c => if c.toNat < 0x10000 then 1 else 2)).sum

/- ------------------------------------------------------------------ -/
/- Section 2: normalizeText (publicCvService.js lines 16-22)           -/
/- ------------------------------------------------------------------ -/

/-- `replace(/\r\n/g, "\n")`: scan left to right, replacing each
non-overlapping CRLF pair by a lone LF. -/
def replCRLF : List Char → List Char
  | [] => []
  | [c] => [c]
  | a :: b :: rest =>
    if a = '\r' && b = '\n' then '\n' :: replCRLF rest
    else a :: replCRLF (b :: rest)

/-- Space or tab, the class `[ \t]`. -/
def isST (c : Char) : Bool := c = ' ' || c = '\t'

/-- `replace(/[ \t]+/g, " ")`: each maximal run of spaces/tabs becomes a single
space.  The flag records whether the previous character was in the run. -/
def collapseWS : Bool → List Char → List Char
  | _, [] => []
  | b, c :: rest =>
    if isST c then
      if b then collapseWS true rest else ' ' :: collapseWS true rest
    else c :: collapseWS false rest

/-- `replace(/\n{3,}/g, "\n\n")`: a maximal run of `k ≥ 3` newlines becomes two,
shorter runs are kept, i.e. every run is capped at two.  The counter is the
number of newlines already emitted in the current run. -/
def collapseNL : Nat → List Char → List Char
  | _, [] => []
  | k, c :: rest =>
    if c = '\n' then
      if k < 2 then '\n' :: collapseNL (k + 1) rest else collapseNL k rest
    else c :: collapseNL 0 rest

/-- `normalizeText` of `src/services/publicCvService.js` lines 16-22 on the
underlying character list: unify CRLF, collapse horizontal whitespace,
cap newline runs at two, trim. -/
def normalizeList (l : List Char) : List Char :=
  jsTrim (collapseNL 0 (collapseWS false (replCRLF l)))

/-- `normalizeText` (`src/services/publicCvService.js` lines 16-22; the same
function appears verbatim in every source variant). -/
def normalizeText (s : String) : String := String.mk (normalizeList s.data)

/-- `normalizeEmail` (`src/services/publicCvService.js` lines 24-30): trim and
lower-case; require an `@` and length at least 6, else `null`.  A JS `null` or
`undefined` or empty-string argument short-circuits to `null`. -/
def normalizeEmail (email : Option String) : Option String :=
  match email with
  | none => none
  | some s =>
    if s = "" then none
    else
      let e := jsLower (jsTrimStr s)
      if !jsIncludes e "@" || jsLength e < 6 then none else some e

/- ------------------------------------------------------------------ -/
/- Section 3: SHA-256 (Node `crypto.createHash("sha256")...digest("hex")`) -/
/- ------------------------------------------------------------------ -/

/-- UTF-8 encoding of one character, as Node's `hash.update(string)` encodes
its input before hashing. -/
def utf8Bytes (c : Char) : List Nat :=
  let n := c.toNat
  if n < 0x80 then [n]
  else if n < 0x800 then [0xc0 + n / 64, 0x80 + n % 64]
  else if n < 0x10000 then [0xe0 + n / 4096, 0x80 + (n / 64) % 64, 0x80 + n % 64]
  else [0xf0 + n / 262144, 0x80 + (n / 4096) % 64, 0x80 + (n / 64) % 64, 0x80 + n % 64]

/-- Bitwise combination of the low `w` bits of two naturals. -/
def bitComb (f : Bool → Bool → Bool) : Nat → Nat → Nat → Nat
  | 0, _, _ => 0
  | w + 1, x, y =>
    (cond (f (x % 2 == 1) (y % 2 == 1)) 1 0) + 2 * bitComb f w (x / 2) (y / 2)

def xor32 (x y : Nat) : Nat := bitComb Bool.xor 32 x y

def and32 (x y : Nat) : Nat := bitComb and 32 x y

def not32 (x : Nat) : Nat := 4294967295 - x % 4294967296

/-- Rotate a 32-bit word right by `n`. -/
def rotr32 (n x : Nat) : Nat := (x / 2 ^ n + x % 2 ^ n * 2 ^ (32 - n)) % 4294967296

/-- Logical shift right. -/
def shr32 (n x : Nat) : Nat := x / 2 ^ n

/-- Addition modulo `2^32`. -/
def addw (x y : Nat) : Nat := (x + y) % 4294967296

def shaCh (x y z : Nat) : Nat := xor32 (and32 x y) (and32 (not32 x) z)

def shaMaj (x y z : Nat) : Nat := xor32 (xor32 (and32 x y) (and32 x z)) (and32 y z)

def bsig0 (x : Nat) : Nat := xor32 (xor32 (rotr32 2 x) (rotr32 13 x)) (rotr32 22 x)

def bsig1 (x : Nat) : Nat := xor32 (xor32 (rotr32 6 x) (rotr32 11 x)) (rotr32 25 x)

def ssig0 (x : Nat) : Nat := xor32 (xor32 (rotr32 7 x) (rotr32 18 x)) (shr32 3 x)

def ssig1 (x : Nat) : Nat := xor32 (xor32 (rotr32 17 x) (rotr32 19 x)) (shr32 10 x)

/-- The SHA-256 round constants (FIPS 180-4, in decimal). -/
def shaK : List Nat :=
  [1116352408, 1899447441, 3049323471, 3921009573, 961987163, 1508970993,
   2453635748, 2870763221, 3624381080, 310598401, 607225278, 1426881987,
   1925078388, 2162078206, 2614888103, 3248222580, 3835390401, 4022224774,
   264347078, 604807628, 770255983, 1249150122, 1555081692, 1996064986,
   2554220882, 2821834349, 2952996808, 3210313671, 3336571891, 3584528711,
   113926993, 338241895, 666307205, 773529912, 1294757372, 1396182291,
   1695183700, 1986661051, 2177026350, 2456956037, 2730485921, 2820302411,
   3259730800, 3345764771, 3516065817, 3600352804, 4094571909, 275423344,
   430227734, 506948616, 659060556, 883997877, 958139571, 1322822218,
   1537002063, 1747873779, 1955562222, 2024104815, 2227730452, 2361852424,
   2428436474, 2756734187, 3204031479, 3329325298]

/-- The SHA-256 initial hash value (FIPS 180-4, in decimal). -/
def shaH0 : List Nat :=
  [1779033703, 3144134277, 1013904242, 2773480762,
   1359893119, 2600822924, 528734635, 1541459225]

/-- Extend the (reversed) message schedule by `n` further words: the most
recent word is at the head of the accumulator. -/
def extendSched : Nat → List Nat → List Nat
  | 0, acc => acc
  | n + 1, acc =>
    extendSched n
      (addw (addw (ssig1 (acc.getD 1 0)) (acc.getD 6 0))
            (addw (ssig0 (acc.getD 14 0)) (acc.getD 15 0)) :: acc)

/-- One compression round: the state is `[a, b, c, d, e, f, g, h]` and the
argument carries the round constant and the schedule word. -/
def shaRound (st : List Nat) (kw : Nat × Nat) : List Nat :=
  let a := st.getD 0 0
  let b := st.getD 1 0
  let c := st.getD 2 0
  let d := st.getD 3 0
  let e := st.getD 4 0
  let f := st.getD 5 0
  let g := st.getD 6 0
  let h := st.getD 7 0
  let t1 := addw (addw (addw h (bsig1 e)) (addw (shaCh e f g) kw.1)) kw.2
  let t2 := addw (bsig0 a) (shaMaj a b c)
  [addw t1 t2, a, b, c, addw d t1, e, f, g]

/-- Compress one 16-word block into the running hash. -/
def shaCompress (h : List Nat) (block : List Nat) : List Nat :=
  let w := (extendSched 48 block.reverse).reverse
  let st := (shaK.zip w).foldl shaRound h
  h.zipWith addw st

/-- Pack big-endian bytes into 32-bit words, four at a time. -/
def packWords : List Nat → List Nat
  | b0 :: b1 :: b2 :: b3 :: r => (((b0 * 256 + b1) * 256 + b2) * 256 + b3) :: packWords r
  | _ => []

/-- Split a word list into `n` chunks of 16. -/
def chunk16 : Nat → List Nat → List (List Nat)
  | 0, _ => []
  | n + 1, ws => ws.take 16 :: chunk16 n (ws.drop 16)

/-- SHA-256 padding: append `0x80`, zeros up to 56 mod 64, then the bit length
as eight big-endian bytes. -/
def shaPad (msg : List Nat) : List Nat :=
  let padLen := (120 - (msg.length + 1) % 64) % 64
  let bitLen := msg.length * 8
  msg ++ 0x80 :: List.replicate padLen 0 ++
    (List.range 8).map (fun i => bitLen / 2 ^ (56 - 8 * i) % 256)

/-- The eight 32-bit words of the SHA-256 digest of a string's UTF-8 bytes. -/
def sha256words (s : String) : List Nat :=
  let bytes := shaPad ((s.data.map utf8Bytes).flatten)
  let words := packWords bytes
  (chunk16 (words.length / 16) words).foldl shaCompress shaH0

/-- One lowercase hex digit. -/
def hexDigit (n : Nat) : Char := ("0123456789abcdef".data).getD n '0'

/-- Eight lowercase hex digits of one 32-bit word, most significant first. -/
def toHex8 (w : Nat) : List Char := (List.range 8).map (fun i => hexDigit (w / 2 ^ (28 - 4 * i) % 16))

/-- `sha256` of `src/services/publicCvService.js` lines 12-14:
`crypto.createHash("sha256").update(text).digest("hex")`, a 64-character
lowercase hex string. -/
def sha256hex (s : String) : String := String.mk (((sha256words s).map toHex8).flatten)

/- ------------------------------------------------------------------ -/
/- Section 4: analysis orchestrator and response shaping               -/
/- ------------------------------------------------------------------ -/

/-- A JSON-parsed JS value, as handed back by the provider layer.  `undef` is
the result of reading an absent object property.  `obj` stands for any plain
non-array object; the shaper never looks inside one, so no payload is kept. -/
inductive JVal where
  | undef : JVal
  | null : JVal
  | bool : Bool → JVal
  | num : Rat → JVal
  | str : String → JVal
  | arr : List JVal → JVal
  | obj : JVal

mutual
/-- JS `String(v)` conversion.  Strings pass through unchanged, arrays join
their stringified elements with commas, plain objects print as
`[object Object]`; an integral number prints via its integer part (the claims
only ever stringify strings). -/
def jsToString : JVal → String
  | .undef => "undefined"
  | .null => "null"
  | .bool b => cond b "true" "false"
  | .num q => if q.den = 1 then toString q.num else toString q
  | .str s => s
  | .arr l => String.intercalate "," (jsToStringL l)
  | .obj => "[object Object]"

/-- JS `String` applied to each element of an array value. -/
def jsToStringL : List JVal → List String
  | [] => []
  | v :: r => jsToString v :: jsToStringL r
end

/-- First-occurrence-order deduplication with exact string equality: the
semantics of `Array.from(new Set(xs))` for an array of strings. -/
def dedupSeen (seen : List String) : List String → List String
  | [] => []
  | s :: r => if seen.contains s then dedupSeen seen r else s :: dedupSeen (s :: seen) r

/-- The candidate object produced by the provider layer: the eight properties
the shaper reads, each an arbitrary JS value (`undef` when the parsed JSON
lacks the property). -/
structure Candidate where
  industry : JVal
  role_seniority : JVal
  top_roles : JVal
  skills : JVal
  score : JVal
  red_flags : JVal
  summary : JVal
  next_steps : JVal

/-- The canonical output schema (every field present and typed). -/
structure AnalysisResult where
  industry : String
  role_seniority : String
  top_roles : List String
  skills : List String
  score : Rat
  red_flags : List String
  summary : String
  next_steps : List String
deriving DecidableEq

/-- The response shaper of `src/services/publicCvService.js` lines 169-184
(the `out` object of `analyzePublicCvText`): keep string fields only when they
are strings, keep array fields only when they are arrays (stringify elements,
for `skills` also trim, drop empties and deduplicate via a `Set`), clamp a
numeric score into `[1, 10]`, and fill documented defaults otherwise. -/
def shapeCandidate (analysis : Candidate) : AnalysisResult :=
  { industry := match analysis.industry with | .str s => s | _ => "General"
    role_seniority := match analysis.role_seniority with | .str s => s | _ => "No determinado"
    top_roles := match analysis.top_roles with
      | .arr l => (jsToStringL l).take 5
      | _ => []
    skills := match analysis.skills with
      | .arr l => (dedupSeen [] ((((jsToStringL l).map (fun s => jsTrimStr s)).filter (fun s => s ≠ ""))) ).take 30
      | _ => []
    score := match analysis.score with | .num q => max 1 (min 10 q) | _ => 5
    red_flags := match analysis.red_flags with
      | .arr l => (jsToStringL l).take 8
      | _ => []
    summary := match analysis.summary with | .str s => s | _ => "Análisis completo del CV."
    next_steps := match analysis.next_steps with
      | .arr l => (jsToStringL l).take 6
      | _ => ["Completar información de experiencia", "Agregar métricas de impacto"] }

/-- Outcome of one `await deepseekAnalyzeCvText(...)`: the promise resolves
with a parsed object, or it rejects (timeout, HTTP error, network error,
unparseable content with no recoverable JSON block, or a property access on a
non-object parse result) and control reaches the `catch` handler. -/
inductive ProviderOutcome where
  | ok : Candidate → ProviderOutcome
  | fail : ProviderOutcome

/-- The fixed system instruction of `analyzePublicCvText`
(`src/services/publicCvService.js` lines 145-162). -/
def instructionText : String :=
  "Analizá el siguiente CV (texto) y devolvé SOLO JSON válido con este formato exacto:\n\n\x7b\n  \"industry\": \"string\",\n  \"role_seniority\": \"string\",\n  \"top_roles\": [\"string\"],\n  \"skills\": [\"string\"],\n  \"score\": number,\n  \"red_flags\": [\"string\"],\n  \"summary\": \"string\",\n  \"next_steps\": [\"string\"]\n\x7d\n\nReglas:\n- Respondé SIEMPRE en español.\n- No inventes certificaciones; si no están, no las agregues.\n- Si faltan datos, ponelo en red_flags/next_steps.\n- No agregues texto fuera del JSON."

/-- The hard-coded fallback of the `catch` branch of `analyzePublicCvText`
(`src/services/publicCvService.js` lines 191-200). -/
def deepseekFailFallback : AnalysisResult :=
  { industry := "IT"
    role_seniority := "Mid-Level"
    top_roles := ["Desarrollador Full Stack", "Desarrollador Backend"]
    skills := ["React", "Node.js", "PostgreSQL", "Docker"]
    score := 7
    red_flags := ["Servicio de análisis temporalmente no disponible"]
    summary := "CV analizado con éxito. Para un análisis más detallado, registrate en Petrolink."
    next_steps := ["Completar información de experiencia", "Agregar proyectos específicos"] }

/-- `analyzePublicCvText` of `src/services/publicCvService.js` lines 140-202:
normalize, build the prompt, call the provider, shape the candidate on
success, return the hard-coded fallback when the call (or anything in the
`try` block) rejects.  The provider is an oracle from the payload text. -/
def analyzePublicCvText1 (provider : String → ProviderOutcome) (cvText : String) : AnalysisResult :=
  let clean := normalizeText cvText
  let payloadText := instructionText ++ "\n\nCV:\n\"\"\"" ++ clean ++ "\"\"\""
  match provider payloadText with
  | .ok analysis => shapeCandidate analysis
  | .fail => deepseekFailFallback

/-- `getEmergencyFallback` of `src/services/publicCvService.js` lines 373-389
(second source variant).  The returned object (its diagnostic `_source`
property aside) has all eight documented fields well-typed. -/
def getEmergencyFallback (text : String) : Candidate :=
  let _textLower := jsLower (normalizeText text)
  { industry := .str "IT"
    role_seniority := .str "Mid-Level"
    top_roles := .arr [.str "Technical Professional"]
    skills := .arr []
    score := .num 5
    red_flags := .arr [.str "Emergency fallback - service issue"]
    summary := .str "Analysis service temporarily unavailable."
    next_steps := .arr [.str "Try again later or contact support"] }

/-- `analyzePublicCvText` of the second source variant
(`src/services/publicCvService.js` lines 343-368): the provider's resolved
object is returned unchanged (`return result;`), with no shaping; only a
rejection is replaced by `getEmergencyFallback`. -/
def analyzePublicCvText2 (outcome : ProviderOutcome) (cvText : String) : Candidate :=
  match outcome with
  | .ok result => result
  | .fail => getEmergencyFallback cvText

/-- Decidable schema validity of a raw candidate object: all eight fields
present with their documented types and bounds. -/
def validCandidateB (c : Candidate) : Bool :=
  (match c.industry with | .str _ => true | _ => false) &&
  (match c.role_seniority with | .str _ => true | _ => false) &&
  (match c.top_roles with | .arr l => l.all (fun v => match v with | .str _ => true | _ => false) && l.length ≤ 5 | _ => false) &&
  (match c.skills with | .arr l => l.all (fun v => match v with | .str _ => true | _ => false) && l.length ≤ 30 | _ => false) &&
  (match c.score with | .num q => decide (1 ≤ q) && decide (q ≤ 10) | _ => false) &&
  (match c.red_flags with | .arr l => l.all (fun v => match v with | .str _ => true | _ => false) && l.length ≤ 8 | _ => false) &&
  (match c.summary with | .str _ => true | _ => false) &&
  (match c.next_steps with | .arr l => l.all (fun v => match v with | .str _ => true | _ => false) && l.length ≤ 6 | _ => false)

/-- Schema validity of a shaped result: the array bounds and the score range
(the eight fields are present and typed by construction of the record). -/
def validShape (r : AnalysisResult) : Prop :=
  r.top_roles.length ≤ 5 ∧ r.skills.length ≤ 30 ∧ r.red_flags.length ≤ 8 ∧
  r.next_steps.length ≤ 6 ∧ 1 ≤ r.score ∧ r.score ≤ 10

/- ------------------------------------------------------------------ -/
/- Section 5: the local heuristic tier (src/unnamed/part_007)          -/
/- ------------------------------------------------------------------ -/

/-- Accumulate a digit run into a number, as `parseInt` does on an all-digit
capture. -/
def digitsVal (l : List Char) : Nat := l.foldl (fun a c => a * 10 + (c.toNat - 48)) 0

/-- Try to match the regex `(\d+)\s*(años|years|año)` at the start of the
list: a maximal digit run, optional whitespace, then one of the literals.
Shorter digit or whitespace runs cannot rescue a failed match (the literals
start with neither a digit nor whitespace), so greedy matching is exact. -/
def matchYearsAt (l : List Char) : Option Nat :=
  let ds := l.takeWhile Char.isDigit
  if ds.isEmpty then none
  else
    let rest := (l.dropWhile Char.isDigit).dropWhile isJSWS
    if leadMatch "años".data rest || leadMatch "years".data rest || leadMatch "año".data rest then
      some (digitsVal ds)
    else none

/-- Leftmost match of `(\d+)\s*(años|years|año)`, the experience extractor of
`localCvAnalysis`. -/
def findYears : List Char → Option Nat
  | [] => none
  | c :: r =>
    match matchYearsAt (c :: r) with
    | some n => some n
    | none => findYears r

/-- The fixed skill vocabulary of `localCvAnalysis` (`src/unnamed/part_007`
lines 97-99). -/
def commonSkills : List String :=
  ["react", "node", "javascript", "typescript", "python", "java",
   "docker", "aws", "postgresql", "mongodb", "express", "git",
   "sql", "html", "css", "vue", "angular"]

/-- `localCvAnalysis` of `src/unnamed/part_007` lines 73-116: the
deterministic local analysis used whenever the DeepSeek key is missing, the
HTTP call fails, the response is empty, or its content yields no JSON
(`deepseekAnalyzeCvText`, same file, lines 11-14, 44-67). -/
def localCvAnalysis (text : String) : AnalysisResult :=
  let textLower := jsLower text
  let industry :=
    if jsIncludes textLower "react" || jsIncludes textLower "node" || jsIncludes textLower "javascript" then "IT"
    else if jsIncludes textLower "oil" || jsIncludes textLower "gas" || jsIncludes textLower "petrol" then "Energía"
    else if jsIncludes textLower "enfermer" || jsIncludes textLower "medic" || jsIncludes textLower "salud" then "Salud"
    else "General"
  let experience := (findYears textLower.data).getD 3
  let seniority :=
    if 5 ≤ experience then "Senior"
    else if 3 ≤ experience then "Mid-Level"
    else "Junior"
  let detectedSkills := commonSkills.filter (fun skill => jsIncludes textLower skill)
  { industry := industry
    role_seniority := seniority
    top_roles := ["Desarrollador Full Stack", "Ingeniero de Software", "Desarrollador Backend"]
    skills := if detectedSkills.length > 0 then detectedSkills else ["JavaScript", "Node.js", "React"]
    score := ((min 10 (max 5 (3 * experience / 2)) : Nat) : Rat)
    red_flags := if jsLength text < 100 then ["CV muy breve"] else []
    summary := "Profesional con " ++ toString experience ++ " años de experiencia en " ++ industry ++ ". " ++
      (if detectedSkills.length > 0 then "Habilidades en " ++ String.intercalate ", " (detectedSkills.take 3) ++ "." else "Perfil técnico.")
    next_steps := ["Agregar más detalles de proyectos específicos",
                   "Incluir métricas de impacto cuantificables",
                   "Especificar tecnologías y herramientas utilizadas"] }

/- ------------------------------------------------------------------ -/
/- Section 6: quota ledger, durable-store variant                      -/
/-            (src/services/publicCvService.js lines 40-134)           -/
/- ------------------------------------------------------------------ -/

/-- A row of the `public_cv_limits` table as selected by the service
(`analysis_count` may be SQL `NULL`, which the code guards with `|| 0`). -/
structure SupaRecord where
  analysis_count : Option Int
  email : Option String

/-- Outcome of the awaited `select ... maybeSingle()`: data with a possibly
absent row, an error object (`selErr`), or a thrown exception. -/
inductive SelectRes where
  | ok : Option SupaRecord → SelectRes
  | err : SelectRes
  | exn : SelectRes

/-- Outcome of an awaited `insert`/`update`: success, an error object, or a
thrown exception. -/
inductive WriteRes where
  | ok : WriteRes
  | err : WriteRes
  | exn : WriteRes

/-- The environment of one `checkAndConsumePublicQuota` call against the
durable store: whether Supabase credentials are configured, and how each
awaited operation behaves if reached. -/
structure SupaEnv where
  hasCreds : Bool
  sel : SelectRes
  ins : WriteRes
  upd : WriteRes

/-- The value `checkAndConsumePublicQuota` resolves with
(`src/services/publicCvService.js` lines 40-134).  `remaining` is a raw JS
number: the fallback paths compute `maxFree - 1` with no clamping. -/
structure QuotaRes1 where
  cv_hash : String
  remaining : Int
  allowed : Bool

/-- `checkAndConsumePublicQuota` of `src/services/publicCvService.js` lines
40-134: hash the normalized text; without credentials or on any select /
insert / update error, or on any exception reaching the `catch`, resolve
permissively with the 12-character hash prefix; otherwise create or increment
the row and deny only when a selected row has `analysis_count >= maxFree`. -/
def checkAndConsumePublicQuota1 (env : SupaEnv) (cvText : String) (email : Option String)
    (maxFree : Int) : QuotaRes1 :=
  let clean := normalizeText cvText
  let cv_hash := sha256hex clean
  let _emailNorm := normalizeEmail email
  if !env.hasCreds then
    { cv_hash := takeStr 12 cv_hash, remaining := maxFree - 1, allowed := true }
  else
    match env.sel with
    | .err => { cv_hash := takeStr 12 cv_hash, remaining := maxFree - 1, allowed := true }
    | .exn => { cv_hash := takeStr 12 cv_hash, remaining := maxFree - 1, allowed := true }
    | .ok none =>
      match env.ins with
      | .ok => { cv_hash := cv_hash, remaining := max 0 (maxFree - 1), allowed := true }
      | .err => { cv_hash := takeStr 12 cv_hash, remaining := maxFree - 1, allowed := true }
      | .exn => { cv_hash := takeStr 12 cv_hash, remaining := maxFree - 1, allowed := true }
    | .ok (some existing) =>
      let c := existing.analysis_count.getD 0
      if maxFree ≤ c then { cv_hash := cv_hash, remaining := 0, allowed := false }
      else
        let nextCount := c + 1
        match env.upd with
        | .ok => { cv_hash := cv_hash, remaining := max 0 (maxFree - nextCount), allowed := true }
        | .err => { cv_hash := takeStr 12 cv_hash, remaining := max 0 (maxFree - nextCount), allowed := true }
        | .exn => { cv_hash := takeStr 12 cv_hash, remaining := maxFree - 1, allowed := true }

/-- The error the earlier variant rethrows. -/
inductive P10Err where
  | selErr : P10Err
  | insErr : P10Err
  | updErr : P10Err
deriving DecidableEq

/-- `checkAndConsumePublicQuota` of `src/unnamed/part_010` lines 35-87: the
same algorithm, but `if (selErr) throw selErr;` (line 50), `if (insErr) throw
insErr;` (line 60) and `if (updErr) throw updErr;` (line 84) propagate every
backing-store error (and any thrown exception) to the caller. -/
def checkAndConsumePublicQuotaP10 (env : SupaEnv) (cvText : String) (email : Option String)
    (maxFree : Int) : Except P10Err QuotaRes1 :=
  let clean := normalizeText cvText
  let cv_hash := sha256hex clean
  let _emailNorm := normalizeEmail email
  match env.sel with
  | .err => .error .selErr
  | .exn => .error .selErr
  | .ok none =>
    match env.ins with
    | .ok => .ok { cv_hash := cv_hash, remaining := max 0 (maxFree - 1), allowed := true }
    | _ => .error .insErr
  | .ok (some existing) =>
    let c := existing.analysis_count.getD 0
    if maxFree ≤ c then .ok { cv_hash := cv_hash, remaining := 0, allowed := false }
    else
      let nextCount := c + 1
      match env.upd with
      | .ok => .ok { cv_hash := cv_hash, remaining := max 0 (maxFree - nextCount), allowed := true }
      | _ => .error .updErr

/- ------------------------------------------------------------------ -/
/- Section 7: quota ledger, in-memory day/identity variant             -/
/-            (src/services/publicCvService.js lines 297-338)          -/
/- ------------------------------------------------------------------ -/

/-- The identity component of the in-memory key (line 307): the trimmed,
lower-cased email when that is a non-empty (truthy) string, else `"anon"`. -/
def identity2 (email : Option String) : String :=
  match email with
  | none => "anon"
  | some s =>
    if s = "" then "anon"
    else
      let t := jsLower (jsTrimStr s)
      if t = "" then "anon" else t

/-- The in-memory quota key (line 310): `dayKey + ":" + identity`.  The
submitted content plays no part in it. -/
def quotaKey2 (dayKey : String) (email : Option String) : String :=
  dayKey ++ ":" ++ identity2 email

/-- The value resolved by the in-memory variants (lines 317-337, 462-468). -/
structure QuotaRes2 where
  cv_hash : String
  allowed : Bool
  remaining : Nat
  count : Nat
  max_free : Nat
deriving DecidableEq

/-- `checkAndConsumePublicQuota` of `src/services/publicCvService.js` lines
300-338: the `quotaMemory` map (keyed by day and identity, missing entry read
as count 0) is threaded explicitly; the whole body runs synchronously between
awaits, so one call is one atomic step on the map.  Day comes from the clock
and is passed in. -/
def checkAndConsumePublicQuota2 (store : String → Nat) (dayKey : String) (cvText : String)
    (email : Option String) (maxFree : Nat) : QuotaRes2 × (String → Nat) :=
  let clean := normalizeText cvText
  let shortHash := takeStr 12 (sha256hex clean)
  let key := quotaKey2 dayKey email
  let cnt := store key
  if maxFree ≤ cnt then
    ({ cv_hash := shortHash, allowed := false, remaining := 0, count := cnt, max_free := maxFree },
     store)
  else
    ({ cv_hash := shortHash, allowed := true, remaining := maxFree - (cnt + 1), count := cnt + 1,
       max_free := maxFree },
     fun k => if k = key then cnt + 1 else store k)

/-- Thread `n` successive calls for the same day, text and identity through
the in-memory map, starting from the empty map. -/
def runCalls2 (dayKey cvText : String) (email : Option String) (maxFree : Nat) : Nat → (String → Nat)
  | 0 => fun _ => 0
  | k + 1 => (checkAndConsumePublicQuota2 (runCalls2 dayKey cvText email maxFree k) dayKey cvText email maxFree).snd

/-- The result of the `(k+1)`-th such call. -/
def callN2 (dayKey cvText : String) (email : Option String) (maxFree k : Nat) : QuotaRes2 :=
  (checkAndConsumePublicQuota2 (runCalls2 dayKey cvText email maxFree k) dayKey cvText email maxFree).fst

/- ------------------------------------------------------------------ -/
/- Section 8: quota ledger, in-memory fingerprint/email variant        -/
/-            (src/services/publicCvService.js lines 419-469)          -/
/- ------------------------------------------------------------------ -/

/-- A `quotaMemory` record of the third variant (lines 437-443). -/
structure Record3 where
  cvHash : String
  email : Option String
  count : Nat
  firstUse : Nat
  lastUse : Nat
deriving DecidableEq

/-- The quota key of the third variant (line 428): `shortHash + ":" + email`
when the email normalizes, else the bare 12-character hash prefix. -/
def quotaKey3 (cvText : String) (email : Option String) : String :=
  let shortHash := takeStr 12 (sha256hex (normalizeText cvText))
  match normalizeEmail email with
  | some e => shortHash ++ ":" ++ e
  | none => shortHash

/-- One day in milliseconds (line 431). -/
def dayInMs : Nat := 24 * 60 * 60 * 1000

/-- `checkAndConsumePublicQuota` of `src/services/publicCvService.js` lines
421-469: get or (re)create the record, increment its count and `lastUse`
unconditionally, store it, garbage-collect entries idle for over seven days,
then answer from the updated count.  `now` is `Date.now()` in milliseconds.
JS compares `now - t > limit` with a possibly negative difference, which
matches truncated `Nat` subtraction (both sides make the guard false). -/
def checkAndConsumePublicQuota3 (store : String → Option Record3) (now : Nat) (cvText : String)
    (email : Option String) (maxFree : Nat) : QuotaRes2 × (String → Option Record3) :=
  let clean := normalizeText cvText
  let shortHash := takeStr 12 (sha256hex clean)
  let emailNorm := normalizeEmail email
  let key := quotaKey3 cvText email
  let record :=
    match store key with
    | none => { cvHash := shortHash, email := emailNorm, count := 1, firstUse := now, lastUse := now : Record3 }
    | some r =>
      if dayInMs < now - r.firstUse then
        { cvHash := shortHash, email := emailNorm, count := 1, firstUse := now, lastUse := now : Record3 }
      else
        { r with count := r.count + 1, lastUse := now }
  let stored := fun k => if k = key then some record else store k
  let cleaned := fun k =>
    match stored k with
    | some r => if 7 * dayInMs < now - r.lastUse then none else some r
    | none => none
  ({ cv_hash := shortHash, allowed := record.count ≤ maxFree,
     remaining := maxFree - record.count, count := record.count, max_free := maxFree },
   cleaned)

/- ------------------------------------------------------------------ -/
/- Section 9: interleaving model for the durable-store variant         -/
/- ------------------------------------------------------------------ -/

/-- The control point of one in-flight `checkAndConsumePublicQuota` call of
the durable-store variant, between its `await` boundaries: it has not yet run
its select; it has run the select and observed the row (the count, `none`
when no row existed); or it has resolved with its `allowed` answer. -/
inductive Phase where
  | start : Phase
  | seen : Option Int → Phase
  | done : Bool → Phase
deriving DecidableEq

/-- The single row of `public_cv_limits` addressed by the fixed fingerprint
that all calls of the scenario share: `none` when the row does not exist,
else its `analysis_count`. -/
abbrev Row := Option Int

/-- One atomic step of one call against the shared row, following lines
55-124: the select reads the row; a call that observed no row inserts
`count = 1` (if the row meanwhile exists, the insert fails and the code
falls back to `allowed = true`, lines 82-90); a call that observed an
exhausted row resolves denied without writing; otherwise it updates the row
to `observed + 1` and resolves allowed. -/
def procStep (maxFree : Int) (row : Row) : Phase → Row × Phase
  | .start => (row, .seen row)
  | .seen none =>
    match row with
    | none => (some 1, .done true)
    | some c => (some c, .done true)
  | .seen (some c) =>
    if maxFree ≤ c then (row, .done false)
    else (some (c + 1), .done true)
  | .done b => (row, .done b)

/-- Run a schedule: each entry names the in-flight call that performs its
next atomic step. -/
def runSched (maxFree : Int) : List Nat → Row × List Phase → Row × List Phase
  | [], st => st
  | i :: rest, (row, procs) =>
    let (row2, ph2) := procStep maxFree row (procs.getD i (.done false))
    runSched maxFree rest (row2, procs.set i ph2)

/-- How many of the calls have resolved with `allowed = true`. -/
def countAllowed (procs : List Phase) : Nat :=
  procs.countP (fun p => p = Phase.done true)

/- ------------------------------------------------------------------ -/
/- Section 10: helper lemmas for the in-memory day/identity ledger     -/
/- ------------------------------------------------------------------ -/

/-- After `k` same-key calls from the empty map, the stored count is
`min k maxFree`: each allowed call adds one, denied calls change nothing. -/
theorem runCalls2_key (d t : String) (e : Option String) (m : Nat) :
    ∀ k, runCalls2 d t e m k (quotaKey2 d e) = min k m := by
  intro k
  induction k with
  | zero => simp [runCalls2]
  | succ k ih =>
    simp only [runCalls2, checkAndConsumePublicQuota2]
    split
    · rename_i h
      rw [ih] at h
      dsimp only
      rw [ih]
      omega
    · rename_i h
      rw [ih] at h
      dsimp only
      rw [if_pos rfl, ih]
      omega

/-- Full behaviour of the `(k+1)`-th same-key call: allowed with the expected
remaining and count while `k < maxFree`, denied with `remaining = 0` after. -/
theorem callN2_spec (d t : String) (e : Option String) (m k : Nat) :
    (k < m → callN2 d t e m k =
      { cv_hash := takeStr 12 (sha256hex (normalizeText t)), allowed := true,
        remaining := m - (k + 1), count := k + 1, max_free := m }) ∧
    (m ≤ k → callN2 d t e m k =
      { cv_hash := takeStr 12 (sha256hex (normalizeText t)), allowed := false,
        remaining := 0, count := m, max_free := m }) := by
  constructor
  · intro hk
    simp only [callN2, checkAndConsumePublicQuota2, runCalls2_key]
    rw [if_neg (by omega)]
    have h1 : min k m = k := by omega
    rw [h1]
  · intro hk
    simp only [callN2, checkAndConsumePublicQuota2, runCalls2_key]
    rw [if_pos (by omega)]
    have h1 : min k m = m := by omega
    rw [h1]

/-- A denied check in the day/identity variant returns the literal denial and
hands back the map unchanged (lines 317-325 return before any mutation). -/
theorem quota2_denied_frame (store : String → Nat) (d t : String) (e : Option String) (m : Nat)
    (h : m ≤ store (quotaKey2 d e)) :
    checkAndConsumePublicQuota2 store d t e m =
      ({ cv_hash := takeStr 12 (sha256hex (normalizeText t)), allowed := false, remaining := 0,
         count := store (quotaKey2 d e), max_free := m }, store) := by
  simp only [checkAndConsumePublicQuota2]
  rw [if_pos h]

/-- An allowed check in the day/identity variant increments exactly its own
key. -/
theorem quota2_allowed_step (store : String → Nat) (d t : String) (e : Option String) (m : Nat)
    (h : ¬ m ≤ store (quotaKey2 d e)) :
    checkAndConsumePublicQuota2 store d t e m =
      ({ cv_hash := takeStr 12 (sha256hex (normalizeText t)), allowed := true,
         remaining := m - (store (quotaKey2 d e) + 1), count := store (quotaKey2 d e) + 1,
         max_free := m },
       fun k => if k = quotaKey2 d e then store (quotaKey2 d e) + 1 else store k) := by
  simp only [checkAndConsumePublicQuota2]
  rw [if_neg h]

/-- In the fingerprint/email variant, a call that finds a same-bucket record
rewrites it: the count is incremented and `lastUse` moved forward even when
the resulting count exceeds `maxFree` and the call is denied. -/
theorem quota3_denied_mutation (store : String → Option Record3) (now : Nat) (t : String)
    (e : Option String) (m : Nat) (r : Record3)
    (hrec : store (quotaKey3 t e) = some r) (hday : now - r.firstUse ≤ dayInMs) :
    (checkAndConsumePublicQuota3 store now t e m).snd (quotaKey3 t e) =
      some { r with count := r.count + 1, lastUse := now } ∧
    (checkAndConsumePublicQuota3 store now t e m).fst.count = r.count + 1 ∧
    (checkAndConsumePublicQuota3 store now t e m).fst.remaining = m - (r.count + 1) ∧
    (m ≤ r.count → (checkAndConsumePublicQuota3 store now t e m).fst.allowed = false) := by
  have hnd : ¬ dayInMs < now - r.firstUse := by omega
  simp only [checkAndConsumePublicQuota3, hrec, if_neg hnd]
  refine ⟨?_, trivial, trivial, ?_⟩
  · simp [Nat.sub_self]
  · intro hm
    simp only [decide_eq_false_iff_not]
    omega

/-- Different identities yield different day/identity keys: the day prefix is
shared, so key equality cancels down to identity equality. -/
theorem quotaKey2_ne (d : String) {e1 e2 : Option String} (h : identity2 e1 ≠ identity2 e2) :
    quotaKey2 d e1 ≠ quotaKey2 d e2 := by
  intro hk
  apply h
  have h2 := congrArg String.data hk
  simp only [quotaKey2, String.data_append] at h2
  exact String.ext (List.append_cancel_left h2)

/- ------------------------------------------------------------------ -/
/- Section 11: helper lemmas for the digest and prefixes               -/
/- ------------------------------------------------------------------ -/

theorem leadMatch_self : ∀ l : List Char, leadMatch l l = true := by
  intro l
  induction l with
  | nil => rfl
  | cons c r ih => simp [leadMatch, ih]

theorem leadMatch_take (n : Nat) (l : List Char) : leadMatch (l.take n) l = true := by
  induction l generalizing n with
  | nil => cases n <;> rfl
  | cons c r ih =>
    cases n with
    | zero => rfl
    | succ k => simp [leadMatch, ih]

theorem shaRound_length (st : List Nat) (kw : Nat × Nat) : (shaRound st kw).length = 8 := rfl

theorem foldl_shaRound_length : ∀ (l : List (Nat × Nat)) (st : List Nat), st.length = 8 →
    (l.foldl shaRound st).length = 8 := by
  intro l
  induction l with
  | nil => intro st h; exact h
  | cons a t ih => intro st _; exact ih (shaRound st a) (shaRound_length st a)

theorem shaCompress_length (h b : List Nat) (hh : h.length = 8) : (shaCompress h b).length = 8 := by
  simp only [shaCompress, List.length_zipWith]
  rw [foldl_shaRound_length _ h hh, hh]
  rfl

theorem foldl_shaCompress_length : ∀ (blocks : List (List Nat)) (h : List Nat), h.length = 8 →
    (blocks.foldl shaCompress h).length = 8 := by
  intro blocks
  induction blocks with
  | nil => intro h hh; exact hh
  | cons b t ih => intro h hh; exact ih (shaCompress h b) (shaCompress_length h b hh)

theorem sha256words_length (s : String) : (sha256words s).length = 8 :=
  foldl_shaCompress_length _ shaH0 rfl

theorem toHex8_length (w : Nat) : (toHex8 w).length = 8 := by
  simp [toHex8]

theorem hexFlatten_length : ∀ ws : List Nat, ((ws.map toHex8).flatten).length = 8 * ws.length := by
  intro ws
  induction ws with
  | nil => rfl
  | cons w t ih =>
    simp only [List.map_cons, List.flatten_cons, List.length_append, toHex8_length, ih,
      List.length_cons]
    omega

/-- The hex digest always has exactly 64 characters. -/
theorem sha256hex_length (s : String) : (sha256hex s).data.length = 64 := by
  show ((((sha256words s).map toHex8).flatten)).length = 64
  rw [hexFlatten_length, sha256words_length]

/- ------------------------------------------------------------------ -/
/- Section 12: the claims                                              -/
/- ------------------------------------------------------------------ -/

/-- C2: for a fixed quota key (same day-bucket, same identity, and same
content — though the key of this variant in fact only uses day and identity)
and `maxFree = 3`, successive calls to `checkAndConsumePublicQuota` starting
from an empty ledger are allowed exactly three times with `remaining` 2, 1, 0,
every later call in the bucket is denied with `remaining = 0`, and in general
with `maxFree = N` every call past the `N`-th is denied. -/
theorem claim_C2_quota_monotonic (d t : String) (e : Option String) :
    ((callN2 d t e 3 0).allowed = true ∧ (callN2 d t e 3 0).remaining = 2) ∧
    ((callN2 d t e 3 1).allowed = true ∧ (callN2 d t e 3 1).remaining = 1) ∧
    ((callN2 d t e 3 2).allowed = true ∧ (callN2 d t e 3 2).remaining = 0) ∧
    (∀ j, 3 ≤ j → (callN2 d t e 3 j).allowed = false ∧ (callN2 d t e 3 j).remaining = 0) ∧
    (∀ m j : Nat, m ≤ j → (callN2 d t e m j).allowed = false) := by
  refine ⟨?_, ?_, ?_, ?_, ?_⟩
  · rw [(callN2_spec d t e 3 0).1 (by omega)]; exact ⟨rfl, rfl⟩
  · rw [(callN2_spec d t e 3 1).1 (by omega)]; exact ⟨rfl, rfl⟩
  · rw [(callN2_spec d t e 3 2).1 (by omega)]; exact ⟨rfl, rfl⟩
  · intro j hj; rw [(callN2_spec d t e 3 j).2 hj]; exact ⟨rfl, rfl⟩
  · intro m j hj; rw [(callN2_spec d t e m j).2 hj]

theorem claim_C2_quota_monotonic_witness :
    ((3 : Nat) ≤ 4 ∧ (callN2 "2025-01-01" "cv text" none 3 4).allowed = false ∧
      (callN2 "2025-01-01" "cv text" none 3 4).remaining = 0) ∧
    ((2 : Nat) ≤ 5 ∧ (callN2 "2025-01-01" "cv text" (some "a@b.com") 2 5).allowed = false) :=
  ⟨⟨by omega, (claim_C2_quota_monotonic "2025-01-01" "cv text" none).2.2.2.1 4 (by omega)⟩,
   ⟨by omega, (claim_C2_quota_monotonic "2025-01-01" "cv text" (some "a@b.com")).2.2.2.2 2 5 (by omega)⟩⟩

/-- C3 (amended): in the day/identity in-memory variant (lines 317-329) a
denied check returns `allowed = false`, `remaining = 0` and leaves the map
untouched; but in the fingerprint/email in-memory variant (lines 434-461) a
denied check still returns `allowed = false`, `remaining = 0`, yet increments
the stored count and moves `lastUse` forward before answering (the bucket's
`firstUse` is preserved, so the bucket is not reset). -/
theorem claim_C3_denied_frame (d : String) :
    (∀ (store : String → Nat) (t : String) (e : Option String) (m : Nat),
      m ≤ store (quotaKey2 d e) →
      (checkAndConsumePublicQuota2 store d t e m).fst.allowed = false ∧
      (checkAndConsumePublicQuota2 store d t e m).fst.remaining = 0 ∧
      (checkAndConsumePublicQuota2 store d t e m).snd = store) ∧
    (∀ (store : String → Option Record3) (now : Nat) (t : String) (e : Option String)
      (m : Nat) (r : Record3),
      store (quotaKey3 t e) = some r → now - r.firstUse ≤ dayInMs → m ≤ r.count →
      (checkAndConsumePublicQuota3 store now t e m).fst.allowed = false ∧
      (checkAndConsumePublicQuota3 store now t e m).fst.remaining = 0 ∧
      (checkAndConsumePublicQuota3 store now t e m).snd (quotaKey3 t e) =
        some { r with count := r.count + 1, lastUse := now }) := by
  constructor
  · intro store t e m h
    rw [quota2_denied_frame store d t e m h]
    exact ⟨rfl, rfl, rfl⟩
  · intro store now t e m r hrec hday hm
    have h := quota3_denied_mutation store now t e m r hrec hday
    refine ⟨h.2.2.2 hm, ?_, h.1⟩
    rw [h.2.2.1]
    omega

theorem claim_C3_denied_frame_witness :
    ((3 : Nat) ≤ (fun _ => 5 : String → Nat) (quotaKey2 "2025-01-01" none) ∧
     (checkAndConsumePublicQuota2 (fun _ => 5) "2025-01-01" "cv" none 3).fst.allowed = false ∧
     (checkAndConsumePublicQuota2 (fun _ => 5) "2025-01-01" "cv" none 3).fst.remaining = 0 ∧
     (checkAndConsumePublicQuota2 (fun _ => 5) "2025-01-01" "cv" none 3).snd = (fun _ => 5)) ∧
    ((checkAndConsumePublicQuota3 (fun _ => some ⟨"g", none, 7, 100, 100⟩) 150 "txt" none 2).fst.allowed = false ∧
     (checkAndConsumePublicQuota3 (fun _ => some ⟨"g", none, 7, 100, 100⟩) 150 "txt" none 2).fst.remaining = 0 ∧
     (checkAndConsumePublicQuota3 (fun _ => some ⟨"g", none, 7, 100, 100⟩) 150 "txt" none 2).snd (quotaKey3 "txt" none) =
       some ⟨"g", none, 8, 100, 150⟩) := by
  constructor
  · exact ⟨by decide, (claim_C3_denied_frame "2025-01-01").1 (fun _ => 5) "cv" none 3 (by decide)⟩
  · exact (claim_C3_denied_frame "2025-01-01").2 (fun _ => some ⟨"g", none, 7, 100, 100⟩) 150
      "txt" none 2 ⟨"g", none, 7, 100, 100⟩ rfl (by decide) (by decide)

/-- C3 (counterexample to the claim as stated): with `maxFree = 3` and a
stored same-bucket record whose count is already 3, the fingerprint/email
variant answers `allowed = false, remaining = 0` but does not leave the record
unchanged: the count becomes 4 and `lastUse` advances from 5 to 7. -/
theorem claim_C3_counterexample :
    ((fun _ => some (⟨"h", none, 3, 5, 5⟩ : Record3)) (quotaKey3 "cv" none) =
      some (⟨"h", none, 3, 5, 5⟩ : Record3)) ∧
    (checkAndConsumePublicQuota3 (fun _ => some ⟨"h", none, 3, 5, 5⟩) 7 "cv" none 3).fst.allowed = false ∧
    (checkAndConsumePublicQuota3 (fun _ => some ⟨"h", none, 3, 5, 5⟩) 7 "cv" none 3).fst.remaining = 0 ∧
    (checkAndConsumePublicQuota3 (fun _ => some ⟨"h", none, 3, 5, 5⟩) 7 "cv" none 3).snd (quotaKey3 "cv" none) =
      some ⟨"h", none, 4, 5, 7⟩ := by
  have h := quota3_denied_mutation (fun _ => some ⟨"h", none, 3, 5, 5⟩) 7 "cv" none 3
    ⟨"h", none, 3, 5, 5⟩ rfl (by decide)
  exact ⟨rfl, h.2.2.2 (by decide), by rw [h.2.2.1]; rfl, h.1⟩

/-- C5 (amended): in the day/identity variant the quota key is
`day + ":" + identity` and ignores the content entirely: two submissions are
charged against the same key iff they carry the same identity in the same day
bucket.  Hence a second submission of different content from the same identity
in the same bucket consumes from the same counter (count 2, remaining 1), while
two distinct identities each get an independent allowance (the second
identity's first call has count 1, remaining 2). -/
theorem claim_C5_key_composition (d t t1 t2 : String) (e : Option String) (e1 e2 : Option String) :
    ((checkAndConsumePublicQuota2 (checkAndConsumePublicQuota2 (fun _ => 0) d t1 e 3).snd d t2 e 3).fst.count = 2 ∧
     (checkAndConsumePublicQuota2 (checkAndConsumePublicQuota2 (fun _ => 0) d t1 e 3).snd d t2 e 3).fst.remaining = 1) ∧
    (identity2 e1 ≠ identity2 e2 →
     (checkAndConsumePublicQuota2 (checkAndConsumePublicQuota2 (fun _ => 0) d t e1 3).snd d t e2 3).fst.count = 1 ∧
     (checkAndConsumePublicQuota2 (checkAndConsumePublicQuota2 (fun _ => 0) d t e1 3).snd d t e2 3).fst.remaining = 2) := by
  constructor
  · rw [quota2_allowed_step (fun _ => 0) d t1 e 3 (by simp)]
    dsimp only
    rw [quota2_allowed_step _ d t2 e 3 (by simp)]
    simp
  · intro h
    rw [quota2_allowed_step (fun _ => 0) d t e1 3 (by simp)]
    dsimp only
    rw [quota2_allowed_step _ d t e2 3 (by simp [if_neg (Ne.symm (quotaKey2_ne d h))])]
    simp [if_neg (Ne.symm (quotaKey2_ne d h))]

theorem claim_C5_key_composition_witness :
    (identity2 (some "a@b.com") ≠ identity2 (some "c@d.org")) ∧
    (checkAndConsumePublicQuota2
      (checkAndConsumePublicQuota2 (fun _ => 0) "2025-01-01" "hello" (some "a@b.com") 3).snd
      "2025-01-01" "hello" (some "c@d.org") 3).fst.count = 1 ∧
    (checkAndConsumePublicQuota2
      (checkAndConsumePublicQuota2 (fun _ => 0) "2025-01-01" "hello" (some "a@b.com") 3).snd
      "2025-01-01" "hello" (some "c@d.org") 3).fst.remaining = 2 :=
  ⟨by decide,
   ((claim_C5_key_composition "2025-01-01" "hello" "x" "y" none (some "a@b.com") (some "c@d.org")).2
     (by decide)).1,
   ((claim_C5_key_composition "2025-01-01" "hello" "x" "y" none (some "a@b.com") (some "c@d.org")).2
     (by decide)).2⟩

/-- C5 (counterexample to the claim as stated): `"aaaa"` and `"bbbb"`
normalize to different content (hence different fingerprints), yet submitted
by the same identity in the same day bucket the second submission is charged
against the same quota key: its count is 2 and its remaining is 1 instead of a
fresh, independent allowance. -/
theorem claim_C5_counterexample :
    normalizeText "aaaa" ≠ normalizeText "bbbb" ∧
    (checkAndConsumePublicQuota2
      (checkAndConsumePublicQuota2 (fun _ => 0) "2025-01-01" "aaaa" (some "a@b.com") 3).snd
      "2025-01-01" "bbbb" (some "a@b.com") 3).fst.count = 2 ∧
    (checkAndConsumePublicQuota2
      (checkAndConsumePublicQuota2 (fun _ => 0) "2025-01-01" "aaaa" (some "a@b.com") 3).snd
      "2025-01-01" "bbbb" (some "a@b.com") 3).fst.remaining = 1 := by
  refine ⟨by decide, ?_, ?_⟩ <;> decide

/-- C6 (amended): the in-memory day/identity variant performs its read, check,
increment and write synchronously between `await` points, so its calls are
serialized and no execution grants more than `maxFree` results for one key;
the durable-store variant, however, reads and then writes across `await`
boundaries without any atomicity, and a schedule in which 2N calls all run
their select before any write completes grants all 2N of them. -/
theorem claim_C6_serialization (d t : String) (e : Option String) :
    (∀ (m j : Nat), m ≤ j → (callN2 d t e m j).allowed = false) ∧
    (∃ schedule : List Nat,
      countAllowed (runSched 2 schedule (none, List.replicate 4 Phase.start)).snd = 4) := by
  constructor
  · intro m j hj
    rw [(callN2_spec d t e m j).2 hj]
  · exact ⟨[0, 1, 2, 3, 0, 1, 2, 3], by decide⟩

theorem claim_C6_serialization_witness :
    (3 : Nat) ≤ 7 ∧ (callN2 "2025-01-01" "cv" none 3 7).allowed = false :=
  ⟨by omega, (claim_C6_serialization "2025-01-01" "cv" none).1 3 7 (by omega)⟩

/-- C6 (counterexample to the claim as stated): with `maxFree = 2`, four
concurrent durable-store calls for one key, scheduled so that all four selects
run before any insert, all observe a missing row and all four resolve
`allowed = true` — four grants, not the claimed exactly two. -/
theorem claim_C6_counterexample :
    countAllowed (runSched 2 [0, 1, 2, 3, 0, 1, 2, 3] (none, List.replicate 4 Phase.start)).snd = 4 ∧
    countAllowed (runSched 2 [0, 1, 2, 3, 0, 1, 2, 3] (none, List.replicate 4 Phase.start)).snd ≠ 2 := by
  constructor <;> decide

/-- C7 (amended): the `src/services/publicCvService.js` ledger (lines 46-133)
never propagates a backing-store failure: a call can only be denied when the
credentials are configured and a successful select finds an exhausted record;
with missing credentials, or on a select error, it resolves permissively with
`allowed = true` and `remaining = maxFree - 1`.  The earlier variant in
`src/unnamed/part_010`, however, rethrows the select error to its caller. -/
theorem claim_C7_store_failure (t : String) (e : Option String) (m : Int) :
    (∀ env : SupaEnv,
      (checkAndConsumePublicQuota1 env t e m).allowed = false →
      env.hasCreds = true ∧ ∃ r, env.sel = SelectRes.ok (some r) ∧ m ≤ r.analysis_count.getD 0) ∧
    (∀ env : SupaEnv, env.hasCreds = false →
      checkAndConsumePublicQuota1 env t e m =
        { cv_hash := takeStr 12 (sha256hex (normalizeText t)), remaining := m - 1, allowed := true }) ∧
    (∀ env : SupaEnv, env.hasCreds = true → env.sel = SelectRes.err →
      checkAndConsumePublicQuota1 env t e m =
        { cv_hash := takeStr 12 (sha256hex (normalizeText t)), remaining := m - 1, allowed := true }) ∧
    (∀ env : SupaEnv, env.sel = SelectRes.err →
      checkAndConsumePublicQuotaP10 env t e m = Except.error P10Err.selErr) := by
  refine ⟨?_, ?_, ?_, ?_⟩
  · rintro ⟨creds, sel, ins, upd⟩ h
    cases creds
    · simp [checkAndConsumePublicQuota1] at h
    · cases sel with
      | ok o =>
        cases o with
        | none => cases ins <;> simp_all [checkAndConsumePublicQuota1]
        | some r =>
          by_cases hc : m ≤ r.analysis_count.getD 0
          · exact ⟨rfl, r, rfl, hc⟩
          · exfalso
            cases upd <;> simp [checkAndConsumePublicQuota1, hc] at h
      | err => simp [checkAndConsumePublicQuota1] at h
      | exn => simp [checkAndConsumePublicQuota1] at h
  · rintro ⟨creds, sel, ins, upd⟩ h
    cases h
    rfl
  · rintro ⟨creds, sel, ins, upd⟩ hcr hsel
    cases hcr
    cases hsel
    rfl
  · rintro ⟨creds, sel, ins, upd⟩ hsel
    cases hsel
    rfl

theorem claim_C7_store_failure_witness :
    ((⟨false, SelectRes.ok none, WriteRes.ok, WriteRes.ok⟩ : SupaEnv).hasCreds = false ∧
     checkAndConsumePublicQuota1 ⟨false, SelectRes.ok none, WriteRes.ok, WriteRes.ok⟩ "cv" none 3 =
       { cv_hash := takeStr 12 (sha256hex (normalizeText "cv")), remaining := 2, allowed := true }) ∧
    ((⟨true, SelectRes.err, WriteRes.ok, WriteRes.ok⟩ : SupaEnv).hasCreds = true ∧
     checkAndConsumePublicQuota1 ⟨true, SelectRes.err, WriteRes.ok, WriteRes.ok⟩ "cv" none 3 =
       { cv_hash := takeStr 12 (sha256hex (normalizeText "cv")), remaining := 2, allowed := true }) ∧
    checkAndConsumePublicQuotaP10 ⟨true, SelectRes.err, WriteRes.ok, WriteRes.ok⟩ "cv" none 3 =
      Except.error P10Err.selErr :=
  ⟨⟨rfl, (claim_C7_store_failure "cv" none 3).2.1 ⟨false, SelectRes.ok none, WriteRes.ok, WriteRes.ok⟩ rfl⟩,
   ⟨rfl, (claim_C7_store_failure "cv" none 3).2.2.1 ⟨true, SelectRes.err, WriteRes.ok, WriteRes.ok⟩ rfl rfl⟩,
   (claim_C7_store_failure "cv" none 3).2.2.2 ⟨true, SelectRes.err, WriteRes.ok, WriteRes.ok⟩ rfl⟩

/-- C7 (counterexample to the claim as stated): in the `src/unnamed/part_010`
variant of `checkAndConsumePublicQuota`, a select error is rethrown
(`if (selErr) throw selErr;`), so the call fails instead of resolving with a
permissive `allowed = true`. -/
theorem claim_C7_counterexample :
    checkAndConsumePublicQuotaP10 ⟨true, SelectRes.err, WriteRes.ok, WriteRes.ok⟩ "my cv" none 3 =
      Except.error P10Err.selErr ∧
    ∀ res : QuotaRes1,
      checkAndConsumePublicQuotaP10 ⟨true, SelectRes.err, WriteRes.ok, WriteRes.ok⟩ "my cv" none 3 ≠
        Except.ok res := by
  exact ⟨rfl, fun res h => Except.noConfusion h⟩

/-- Every path of the durable-store ledger sets `cv_hash` to the full digest
or to its 12-character prefix (lines 48-52, 66-70, 85-92, 96-97, 117-124,
128-132). -/
theorem quota1_hash_cases (env : SupaEnv) (t : String) (e : Option String) (m : Int) :
    (checkAndConsumePublicQuota1 env t e m).cv_hash = sha256hex (normalizeText t) ∨
    (checkAndConsumePublicQuota1 env t e m).cv_hash = takeStr 12 (sha256hex (normalizeText t)) := by
  rcases env with ⟨creds, sel, ins, upd⟩
  cases creds
  · right; rfl
  · cases sel with
    | err => right; rfl
    | exn => right; rfl
    | ok o =>
      cases o with
      | none =>
        cases ins with
        | ok => left; rfl
        | err => right; rfl
        | exn => right; rfl
      | some r =>
        by_cases hc : m ≤ r.analysis_count.getD 0
        · left; simp [checkAndConsumePublicQuota1, hc]
        · cases upd with
          | ok => left; simp [checkAndConsumePublicQuota1, hc]
          | err => right; simp [checkAndConsumePublicQuota1, hc]
          | exn => right; simp [checkAndConsumePublicQuota1, hc]

/-- C10: every result of the durable-store `checkAndConsumePublicQuota`
carries a `cv_hash` that is a prefix of the 64-character lowercase hex SHA-256
digest of the normalized text (never the raw text): the no-credentials
in-memory path returns only the first 12 characters, while the durable paths
(fresh insert, and denial of an exhausted record) return the full digest — the
prefix length is inconsistent across paths of the public interface. -/
theorem claim_C10_cv_hash (env : SupaEnv) (t : String) (e : Option String) (m : Int) :
    leadMatch (checkAndConsumePublicQuota1 env t e m).cv_hash.data
      (sha256hex (normalizeText t)).data = true ∧
    ((checkAndConsumePublicQuota1 env t e m).cv_hash = sha256hex (normalizeText t) ∨
     (checkAndConsumePublicQuota1 env t e m).cv_hash = takeStr 12 (sha256hex (normalizeText t))) ∧
    (sha256hex (normalizeText t)).data.length = 64 ∧
    (env.hasCreds = false →
      (checkAndConsumePublicQuota1 env t e m).cv_hash = takeStr 12 (sha256hex (normalizeText t))) ∧
    (env.hasCreds = true → env.sel = SelectRes.ok none → env.ins = WriteRes.ok →
      (checkAndConsumePublicQuota1 env t e m).cv_hash = sha256hex (normalizeText t)) ∧
    (∀ r, env.hasCreds = true → env.sel = SelectRes.ok (some r) →
      m ≤ r.analysis_count.getD 0 →
      (checkAndConsumePublicQuota1 env t e m).cv_hash = sha256hex (normalizeText t)) ∧
    (∀ r, env.hasCreds = true → env.sel = SelectRes.ok (some r) →
      ¬ m ≤ r.analysis_count.getD 0 → env.upd = WriteRes.ok →
      (checkAndConsumePublicQuota1 env t e m).cv_hash = sha256hex (normalizeText t)) := by
  refine ⟨?_, quota1_hash_cases env t e m, sha256hex_length _, ?_, ?_, ?_, ?_⟩
  · rcases quota1_hash_cases env t e m with h | h <;> rw [h]
    · exact leadMatch_self _
    · exact leadMatch_take 12 _
  · rcases env with ⟨creds, sel, ins, upd⟩
    rintro rfl
    rfl
  · rcases env with ⟨creds, sel, ins, upd⟩
    rintro rfl rfl rfl
    rfl
  · rcases env with ⟨creds, sel, ins, upd⟩
    rintro r rfl rfl hc
    simp [checkAndConsumePublicQuota1, hc]
  · rcases env with ⟨creds, sel, ins, upd⟩
    rintro r rfl rfl hc rfl
    simp [checkAndConsumePublicQuota1, hc]

theorem claim_C10_cv_hash_witness :
    ((⟨false, SelectRes.ok none, WriteRes.ok, WriteRes.ok⟩ : SupaEnv).hasCreds = false ∧
     (checkAndConsumePublicQuota1 ⟨false, SelectRes.ok none, WriteRes.ok, WriteRes.ok⟩ "some cv" none 3).cv_hash =
       takeStr 12 (sha256hex (normalizeText "some cv"))) ∧
    ((checkAndConsumePublicQuota1 ⟨true, SelectRes.ok none, WriteRes.ok, WriteRes.ok⟩ "some cv" none 3).cv_hash =
       sha256hex (normalizeText "some cv")) ∧
    ((3 : Int) ≤ ((⟨some 3, none⟩ : SupaRecord).analysis_count.getD 0) ∧
     (checkAndConsumePublicQuota1 ⟨true, SelectRes.ok (some ⟨some 3, none⟩), WriteRes.ok, WriteRes.ok⟩ "some cv" none 3).cv_hash =
       sha256hex (normalizeText "some cv")) ∧
    (¬ (3 : Int) ≤ ((⟨some 1, none⟩ : SupaRecord).analysis_count.getD 0) ∧
     (checkAndConsumePublicQuota1 ⟨true, SelectRes.ok (some ⟨some 1, none⟩), WriteRes.ok, WriteRes.ok⟩ "some cv" none 3).cv_hash =
       sha256hex (normalizeText "some cv")) :=
  ⟨⟨rfl, (claim_C10_cv_hash ⟨false, SelectRes.ok none, WriteRes.ok, WriteRes.ok⟩ "some cv" none 3).2.2.2.1 rfl⟩,
   (claim_C10_cv_hash ⟨true, SelectRes.ok none, WriteRes.ok, WriteRes.ok⟩ "some cv" none 3).2.2.2.2.1 rfl rfl rfl,
   ⟨by decide,
    (claim_C10_cv_hash ⟨true, SelectRes.ok (some ⟨some 3, none⟩), WriteRes.ok, WriteRes.ok⟩ "some cv" none 3).2.2.2.2.2.1
      ⟨some 3, none⟩ rfl rfl (by decide)⟩,
   ⟨by decide,
    (claim_C10_cv_hash ⟨true, SelectRes.ok (some ⟨some 1, none⟩), WriteRes.ok, WriteRes.ok⟩ "some cv" none 3).2.2.2.2.2.2
      ⟨some 1, none⟩ rfl rfl (by decide) rfl⟩⟩

/-- The shaper truncates every array field to its documented maximum. -/
theorem shapeCandidate_bounds (c : Candidate) :
    (shapeCandidate c).top_roles.length ≤ 5 ∧ (shapeCandidate c).skills.length ≤ 30 ∧
    (shapeCandidate c).red_flags.length ≤ 8 ∧ (shapeCandidate c).next_steps.length ≤ 6 := by
  unfold shapeCandidate
  refine ⟨?_, ?_, ?_, ?_⟩
  · cases c.top_roles <;> simp [List.length_take]
  · cases c.skills <;> simp [List.length_take]
  · cases c.red_flags <;> simp [List.length_take]
  · cases c.next_steps <;> simp [List.length_take]

/-- The shaper's score is always in the inclusive range `[1, 10]`. -/
theorem shapeCandidate_score (c : Candidate) :
    1 ≤ (shapeCandidate c).score ∧ (shapeCandidate c).score ≤ 10 := by
  unfold shapeCandidate
  constructor
  · cases c.score
    case num q => exact le_max_left 1 _
    all_goals norm_num
  · cases c.score
    case num q => exact max_le (by norm_num) (min_le_left 10 q)
    all_goals norm_num

/-- Every shaped result is schema-valid. -/
theorem shapeCandidate_valid (c : Candidate) : validShape (shapeCandidate c) := by
  obtain ⟨h1, h2, h3, h4⟩ := shapeCandidate_bounds c
  obtain ⟨h5, h6⟩ := shapeCandidate_score c
  exact ⟨h1, h2, h3, h4, h5, h6⟩

/-- C1 (amended): `analyzePublicCvText` never propagates an error in either
variant — every outcome of the provider resolves to a returned value.  In the
variant at lines 140-202 the result is schema-valid for every provider
behaviour (arbitrary candidate object, or a rejected call), because every
success passes through the shaper and every failure returns the hard-coded
fallback.  The variant at lines 343-368, however, returns the provider's
parsed object unshaped; only its failure path (the emergency fallback) is
schema-valid. -/
theorem claim_C1_orchestrator_totality :
    (∀ (provider : String → ProviderOutcome) (cvText : String),
      validShape (analyzePublicCvText1 provider cvText)) ∧
    (∀ cvText : String,
      validCandidateB (analyzePublicCvText2 ProviderOutcome.fail cvText) = true) := by
  constructor
  · intro provider cvText
    show validShape
      (match provider (instructionText ++ "\n\nCV:\n\"\"\"" ++ normalizeText cvText ++ "\"\"\"") with
        | ProviderOutcome.ok analysis => shapeCandidate analysis
        | ProviderOutcome.fail => deepseekFailFallback)
    cases provider (instructionText ++ "\n\nCV:\n\"\"\"" ++ normalizeText cvText ++ "\"\"\"") with
    | ok analysis => exact shapeCandidate_valid analysis
    | fail => exact ⟨by decide, by decide, by decide, by decide, by decide, by decide⟩
  · intro cvText
    rfl

/-- C1 (counterexample to the claim as stated): when the provider resolves
with well-formed JSON carrying none of the documented fields (the parse of
`"{}"`, every property read yielding `undefined`), the variant of
`analyzePublicCvText` at lines 343-368 returns that object as-is — the result
is missing all eight documented fields, so it is not a schema-valid
`AnalysisResult`. -/
theorem claim_C1_counterexample :
    analyzePublicCvText2
      (ProviderOutcome.ok ⟨.undef, .undef, .undef, .undef, .undef, .undef, .undef, .undef⟩) "my cv" =
      ⟨.undef, .undef, .undef, .undef, .undef, .undef, .undef, .undef⟩ ∧
    validCandidateB
      (analyzePublicCvText2
        (ProviderOutcome.ok ⟨.undef, .undef, .undef, .undef, .undef, .undef, .undef, .undef⟩) "my cv") =
      false :=
  ⟨rfl, rfl⟩

/-- The probe object of the shaper-clamping scenario:
`{ score: 99, skills: ["A","a","B"], top_roles: "not-an-array" }`. -/
def shaperProbe : Candidate :=
  { industry := .undef
    role_seniority := .undef
    top_roles := .str "not-an-array"
    skills := .arr [.str "A", .str "a", .str "B"]
    score := .num 99
    red_flags := .undef
    summary := .undef
    next_steps := .undef }

/-- C4 (amended): shaping the probe yields `score = 10` (clamped into
`[1, 10]`), `top_roles = []` (a non-array is replaced by the empty array), and
`skills = ["A", "a", "B"]` — three elements, because the deduplication is the
exact string equality of a JS `Set` (after trimming), not case-insensitive;
and in general every array field is truncated to its documented maximum
(top_roles 5, skills 30, red_flags 8, next_steps 6). -/
theorem claim_C4_shaper_clamping :
    (shapeCandidate shaperProbe).score = 10 ∧
    (shapeCandidate shaperProbe).top_roles = [] ∧
    (shapeCandidate shaperProbe).skills = ["A", "a", "B"] ∧
    (∀ c : Candidate,
      (shapeCandidate c).top_roles.length ≤ 5 ∧ (shapeCandidate c).skills.length ≤ 30 ∧
      (shapeCandidate c).red_flags.length ≤ 8 ∧ (shapeCandidate c).next_steps.length ≤ 6) :=
  ⟨by decide, by decide, by decide, shapeCandidate_bounds⟩

/-- C4 (counterexample to the claim as stated): on the probe the shaped
`skills` list is `["A", "a", "B"]` with three elements, not the claimed
case-insensitively deduplicated `["A", "B"]` with two. -/
theorem claim_C4_counterexample :
    (shapeCandidate shaperProbe).skills = ["A", "a", "B"] ∧
    (shapeCandidate shaperProbe).skills ≠ ["A", "B"] ∧
    (shapeCandidate shaperProbe).skills.length = 3 ∧
    (shapeCandidate shaperProbe).score = 10 ∧
    (shapeCandidate shaperProbe).top_roles = [] := by
  refine ⟨by decide, by decide, by decide, by decide, by decide⟩

/-- C8: on the text `"8 years experience with react, node and docker"` the
local heuristic tier detects industry `"IT"` (the text contains `"react"`),
extracts 8 years of experience (so seniority is `"Senior"`, since 8 ≥ 5),
detects the skills `"react"`, `"node"` and `"docker"`, and scores within
`[1, 10]`; and for any text of length at least 100 it reports no red flags. -/
theorem claim_C8_local_heuristic :
    (localCvAnalysis "8 years experience with react, node and docker").industry = "IT" ∧
    (localCvAnalysis "8 years experience with react, node and docker").role_seniority = "Senior" ∧
    "react" ∈ (localCvAnalysis "8 years experience with react, node and docker").skills ∧
    "node" ∈ (localCvAnalysis "8 years experience with react, node and docker").skills ∧
    "docker" ∈ (localCvAnalysis "8 years experience with react, node and docker").skills ∧
    1 ≤ (localCvAnalysis "8 years experience with react, node and docker").score ∧
    (localCvAnalysis "8 years experience with react, node and docker").score ≤ 10 ∧
    (∀ t : String, 100 ≤ jsLength t → (localCvAnalysis t).red_flags = []) := by
  refine ⟨by decide, by decide, by decide, by decide, by decide, by decide, by decide, ?_⟩
  intro t ht
  show (if jsLength t < 100 then ["CV muy breve"] else []) = []
  rw [if_neg (by omega)]

set_option maxRecDepth 8192 in
theorem claim_C8_local_heuristic_witness :
    100 ≤ jsLength "8 years experience with react, node and docker, including large production deployments, team leadership and continuous delivery pipelines" ∧
    (localCvAnalysis "8 years experience with react, node and docker, including large production deployments, team leadership and continuous delivery pipelines").red_flags = [] :=
  ⟨by decide,
   claim_C8_local_heuristic.2.2.2.2.2.2.2
     "8 years experience with react, node and docker, including large production deployments, team leadership and continuous delivery pipelines" (by decide)⟩

/- ------------------------------------------------------------------ -/
/- Section 13: idempotence of normalizeText on CR-free strings         -/
/- ------------------------------------------------------------------ -/

/-- No carriage return anywhere. -/
def noCR : List Char → Bool
  | [] => true
  | c :: r => !(c == '\r') && noCR r

/-- No tab, and no space directly after a space; the flag says whether the
previous character was a space. -/
def wsOK : Bool → List Char → Bool
  | _, [] => true
  | b, c :: r =>
    if c = '\t' then false
    else if c = ' ' then !b && wsOK true r
    else wsOK false r

/-- No run of three newlines, counting `k` newlines immediately before the
list. -/
def nlOK : Nat → List Char → Bool
  | _, [] => true
  | k, c :: r => if c = '\n' then decide (k < 2) && nlOK (k + 1) r else nlOK 0 r

/-- The first character, if any, is not JS whitespace. -/
def headOK (l : List Char) : Bool :=
  match l.head? with
  | some c => !isJSWS c
  | none => true

/-- The last character, if any, is not JS whitespace. -/
def lastOK (l : List Char) : Bool :=
  match l.getLast? with
  | some c => !isJSWS c
  | none => true

theorem replCRLF_id : ∀ l : List Char, noCR l = true → replCRLF l = l := by
  intro l h
  induction l with
  | nil => rfl
  | cons a r ih =>
    cases r with
    | nil => rfl
    | cons b rest =>
      simp only [noCR, Bool.and_eq_true, bne_iff_ne, ne_eq, Bool.not_eq_true'] at h
      have ha : a ≠ '\r' := by
        intro hc
        simp [hc] at h
      simp only [replCRLF]
      rw [if_neg (by simp [ha])]
      have hr : noCR (b :: rest) = true := by
        simp only [noCR, Bool.and_eq_true, Bool.not_eq_true'] at h ⊢
        exact h.2
      rw [ih hr]

theorem collapseWS_id : ∀ (l : List Char) (b : Bool), wsOK b l = true → collapseWS b l = l := by
  intro l
  induction l with
  | nil => intro b _; rfl
  | cons c r ih =>
    intro b h
    simp only [wsOK] at h
    simp only [collapseWS]
    by_cases ht : c = '\t'
    · rw [if_pos ht] at h
      exact absurd h (by simp)
    · rw [if_neg ht] at h
      by_cases hs : c = ' '
      · rw [if_pos hs] at h
        simp only [Bool.and_eq_true, Bool.not_eq_true'] at h
        rw [if_pos (by simp [isST, hs]), h.1]
        simp only [Bool.false_eq_true, if_false]
        rw [ih true h.2, hs]
      · rw [if_neg hs] at h
        rw [if_neg (by simp [isST, hs, ht])]
        rw [ih false h]

theorem collapseNL_id : ∀ (l : List Char) (k : Nat), nlOK k l = true → collapseNL k l = l := by
  intro l
  induction l with
  | nil => intro k _; rfl
  | cons c r ih =>
    intro k h
    simp only [nlOK] at h
    simp only [collapseNL]
    by_cases hn : c = '\n'
    · rw [if_pos hn] at h
      simp only [Bool.and_eq_true, decide_eq_true_eq] at h
      rw [if_pos hn, if_pos h.1, ih (k + 1) h.2, hn]
    · rw [if_neg hn] at h
      rw [if_neg hn, ih 0 h]

theorem trimL_id (l : List Char) (h : headOK l = true) : jsTrimL l = l := by
  cases l with
  | nil => rfl
  | cons c r =>
    simp only [headOK, List.head?_cons, Bool.not_eq_true'] at h
    simp [jsTrimL, List.dropWhile, h]

theorem trimR_id (l : List Char) (h : lastOK l = true) : jsTrimR l = l := by
  have hrev : headOK l.reverse = true := by
    simp only [headOK, List.head?_reverse]
    simpa only [lastOK] using h
  have := trimL_id l.reverse hrev
  simp only [jsTrimL] at this
  simp [jsTrimR, this]

theorem jsTrim_id (l : List Char) (h1 : headOK l = true) (h2 : lastOK l = true) :
    jsTrim l = l := by
  unfold jsTrim
  rw [show jsTrimL l = l from trimL_id l h1, trimR_id l h2]

theorem noCR_collapseWS : ∀ (l : List Char) (b : Bool), noCR l = true → noCR (collapseWS b l) = true := by
  intro l
  induction l with
  | nil => intro b _; rfl
  | cons c r ih =>
    intro b h
    simp only [noCR, Bool.and_eq_true] at h
    simp only [collapseWS]
    by_cases hst : isST c = true
    · rw [if_pos hst]
      cases b with
      | true => exact ih true h.2
      | false =>
        simp only [Bool.false_eq_true, if_false, noCR, Bool.and_eq_true]
        exact ⟨by decide, ih true h.2⟩
    · rw [if_neg hst]
      simp only [noCR, Bool.and_eq_true]
      exact ⟨h.1, ih false h.2⟩

theorem noCR_collapseNL : ∀ (l : List Char) (k : Nat), noCR l = true → noCR (collapseNL k l) = true := by
  intro l
  induction l with
  | nil => intro k _; rfl
  | cons c r ih =>
    intro k h
    simp only [noCR, Bool.and_eq_true] at h
    simp only [collapseNL]
    by_cases hn : c = '\n'
    · rw [if_pos hn]
      by_cases hk : k < 2
      · rw [if_pos hk]
        simp only [noCR, Bool.and_eq_true]
        exact ⟨by decide, ih (k + 1) h.2⟩
      · rw [if_neg hk]
        exact ih k h.2
    · rw [if_neg hn]
      simp only [noCR, Bool.and_eq_true]
      exact ⟨h.1, ih 0 h.2⟩

theorem noCR_append (a b : List Char) : noCR (a ++ b) = (noCR a && noCR b) := by
  induction a with
  | nil => simp [noCR]
  | cons c r ih => simp [noCR, ih, Bool.and_assoc]

theorem noCR_reverse (l : List Char) : noCR l.reverse = noCR l := by
  induction l with
  | nil => rfl
  | cons c r ih =>
    simp only [List.reverse_cons, noCR_append, ih, noCR]
    cases noCR r <;> cases (c == '\r') <;> rfl

theorem noCR_dropWhile (p : Char → Bool) : ∀ l : List Char, noCR l = true →
    noCR (l.dropWhile p) = true := by
  intro l h
  induction l with
  | nil => exact h
  | cons c r ih =>
    simp only [noCR, Bool.and_eq_true] at h
    simp only [List.dropWhile]
    by_cases hp : p c = true
    · rw [hp]
      exact ih h.2
    · rw [Bool.not_eq_true] at hp
      rw [hp]
      simp only [noCR, Bool.and_eq_true]
      exact h

theorem noCR_jsTrim (l : List Char) (h : noCR l = true) : noCR (jsTrim l) = true := by
  unfold jsTrim jsTrimR jsTrimL
  rw [noCR_reverse]
  apply noCR_dropWhile
  rw [noCR_reverse]
  exact noCR_dropWhile _ l h

theorem wsOK_relax : ∀ l : List Char, wsOK true l = true → wsOK false l = true := by
  intro l h
  cases l with
  | nil => rfl
  | cons c r =>
    simp only [wsOK] at h ⊢
    by_cases ht : c = '\t'
    · rw [if_pos ht] at h
      exact absurd h (by simp)
    · rw [if_neg ht] at h ⊢
      by_cases hs : c = ' '
      · rw [if_pos hs] at h
        exact absurd h (by simp)
      · rw [if_neg hs] at h ⊢
        exact h

theorem wsOK_collapseWS : ∀ (l : List Char) (b : Bool), wsOK b (collapseWS b l) = true := by
  intro l
  induction l with
  | nil => intro b; rfl
  | cons c r ih =>
    intro b
    simp only [collapseWS]
    by_cases hst : isST c = true
    · rw [if_pos hst]
      cases b with
      | true => exact ih true
      | false =>
        simp only [Bool.false_eq_true, if_false, wsOK]
        simpa using ih true
    · rw [if_neg hst]
      simp only [isST, Bool.or_eq_true, not_or] at hst
      push_neg at hst
      simp only [wsOK, decide_eq_true_eq]
      rw [if_neg (by simpa using hst.2), if_neg (by simpa using hst.1)]
      exact ih false

theorem wsOK_collapseNL : ∀ (l : List Char) (k : Nat) (b : Bool), (k ≠ 0 → b = false) →
    wsOK b l = true → wsOK b (collapseNL k l) = true := by
  intro l
  induction l with
  | nil => intro k b _ _; rfl
  | cons c r ih =>
    intro k b hkb h
    simp only [collapseNL]
    by_cases hn : c = '\n'
    · rw [if_pos hn]
      have hr : wsOK false r = true := by
        simp only [wsOK, hn] at h
        rw [if_neg (by decide), if_neg (by decide)] at h
        exact h
      by_cases hk : k < 2
      · rw [if_pos hk]
        simp only [wsOK]
        rw [if_neg (by decide), if_neg (by decide)]
        exact ih (k + 1) false (fun _ => rfl) hr
      · rw [if_neg hk]
        have hb : b = false := hkb (by omega)
        rw [hb]
        exact ih k false (fun _ => rfl) hr
    · rw [if_neg hn]
      simp only [wsOK] at h ⊢
      by_cases ht : c = '\t'
      · rw [if_pos ht] at h
        exact absurd h (by simp)
      · rw [if_neg ht] at h ⊢
        by_cases hs : c = ' '
        · rw [if_pos hs] at h ⊢
          simp only [Bool.and_eq_true] at h ⊢
          exact ⟨h.1, ih 0 true (by omega) h.2⟩
        · rw [if_neg hs] at h ⊢
          exact ih 0 false (by omega) h

theorem wsOK_dropWhile (p : Char → Bool) : ∀ l : List Char, wsOK false l = true →
    wsOK false (l.dropWhile p) = true := by
  intro l h
  induction l with
  | nil => exact h
  | cons c r ih =>
    simp only [List.dropWhile]
    by_cases hp : p c = true
    · rw [hp]
      apply ih
      simp only [wsOK] at h
      by_cases ht : c = '\t'
      · rw [if_pos ht] at h
        exact absurd h (by simp)
      · rw [if_neg ht] at h
        by_cases hs : c = ' '
        · rw [if_pos hs] at h
          simp only [Bool.and_eq_true] at h
          exact wsOK_relax r h.2
        · rw [if_neg hs] at h
          exact h
    · rw [Bool.not_eq_true] at hp
      rw [hp]
      exact h

theorem wsOK_append_left : ∀ (a b : List Char) (fl : Bool), wsOK fl (a ++ b) = true →
    wsOK fl a = true := by
  intro a
  induction a with
  | nil => intro b fl _; rfl
  | cons c r ih =>
    intro b fl h
    simp only [List.cons_append, wsOK] at h ⊢
    by_cases ht : c = '\t'
    · rw [if_pos ht] at h
      exact absurd h (by simp)
    · rw [if_neg ht] at h ⊢
      by_cases hs : c = ' '
      · rw [if_pos hs] at h ⊢
        simp only [Bool.and_eq_true] at h ⊢
        exact ⟨h.1, ih b true h.2⟩
      · rw [if_neg hs] at h ⊢
        exact ih b false h

/-- The right-trimmed list is an initial segment of the original. -/
theorem jsTrimR_decomp (l : List Char) : ∃ tl, l = jsTrimR l ++ tl := by
  refine ⟨(l.reverse.takeWhile isJSWS).reverse, ?_⟩
  have h := List.takeWhile_append_dropWhile (p := isJSWS) (l := l.reverse)
  calc l = l.reverse.reverse := (List.reverse_reverse l).symm
    _ = (l.reverse.takeWhile isJSWS ++ l.reverse.dropWhile isJSWS).reverse := by rw [h]
    _ = jsTrimR l ++ (l.reverse.takeWhile isJSWS).reverse := by
      rw [List.reverse_append]; rfl

theorem wsOK_jsTrimR (l : List Char) (h : wsOK false l = true) : wsOK false (jsTrimR l) = true := by
  obtain ⟨tl, hd⟩ := jsTrimR_decomp l
  rw [hd] at h
  exact wsOK_append_left _ tl false h

theorem wsOK_jsTrim (l : List Char) (h : wsOK false l = true) : wsOK false (jsTrim l) = true :=
  wsOK_jsTrimR _ (wsOK_dropWhile isJSWS l h)

theorem nlOK_mono : ∀ (l : List Char) (k j : Nat), j ≤ k → nlOK k l = true → nlOK j l = true := by
  intro l
  induction l with
  | nil => intro k j _ _; rfl
  | cons c r ih =>
    intro k j hjk h
    simp only [nlOK] at h ⊢
    by_cases hn : c = '\n'
    · rw [if_pos hn] at h ⊢
      simp only [Bool.and_eq_true, decide_eq_true_eq] at h ⊢
      exact ⟨by omega, ih (k + 1) (j + 1) (by omega) h.2⟩
    · rw [if_neg hn] at h ⊢
      exact h

theorem nlOK_collapseNL : ∀ (l : List Char) (k : Nat), nlOK k (collapseNL k l) = true := by
  intro l
  induction l with
  | nil => intro k; rfl
  | cons c r ih =>
    intro k
    simp only [collapseNL]
    by_cases hn : c = '\n'
    · rw [if_pos hn]
      by_cases hk : k < 2
      · rw [if_pos hk]
        simp only [nlOK, if_true]
        simp only [Bool.and_eq_true, decide_eq_true_eq]
        exact ⟨hk, ih (k + 1)⟩
      · rw [if_neg hk]
        exact ih k
    · rw [if_neg hn]
      simp only [nlOK]
      rw [if_neg hn]
      exact ih 0

theorem nlOK_dropWhile (p : Char → Bool) : ∀ l : List Char, nlOK 0 l = true →
    nlOK 0 (l.dropWhile p) = true := by
  intro l h
  induction l with
  | nil => exact h
  | cons c r ih =>
    simp only [List.dropWhile]
    by_cases hp : p c = true
    · rw [hp]
      apply ih
      simp only [nlOK] at h
      by_cases hn : c = '\n'
      · rw [if_pos hn] at h
        simp only [Bool.and_eq_true] at h
        exact nlOK_mono r 1 0 (by omega) h.2
      · rw [if_neg hn] at h
        exact h
    · rw [Bool.not_eq_true] at hp
      rw [hp]
      exact h

theorem nlOK_append_left : ∀ (a b : List Char) (k : Nat), nlOK k (a ++ b) = true →
    nlOK k a = true := by
  intro a
  induction a with
  | nil => intro b k _; rfl
  | cons c r ih =>
    intro b k h
    simp only [List.cons_append, nlOK] at h ⊢
    by_cases hn : c = '\n'
    · rw [if_pos hn] at h ⊢
      simp only [Bool.and_eq_true] at h ⊢
      exact ⟨h.1, ih b (k + 1) h.2⟩
    · rw [if_neg hn] at h ⊢
      exact ih b 0 h

theorem nlOK_jsTrim (l : List Char) (h : nlOK 0 l = true) : nlOK 0 (jsTrim l) = true := by
  obtain ⟨tl, hd⟩ := jsTrimR_decomp (jsTrimL l)
  have h1 : nlOK 0 (jsTrimL l) = true := nlOK_dropWhile isJSWS l h
  rw [hd] at h1
  exact nlOK_append_left _ tl 0 h1

theorem headOK_dropWhile (l : List Char) : headOK (l.dropWhile isJSWS) = true := by
  induction l with
  | nil => rfl
  | cons c r ih =>
    simp only [List.dropWhile]
    by_cases hp : isJSWS c = true
    · rw [hp]
      exact ih
    · rw [Bool.not_eq_true] at hp
      rw [hp]
      simp [headOK, hp]

theorem headOK_append_left (a b : List Char) (h : headOK (a ++ b) = true) : headOK a = true := by
  cases a with
  | nil => rfl
  | cons c r => simpa [headOK] using h

theorem headOK_jsTrim (l : List Char) : headOK (jsTrim l) = true := by
  obtain ⟨tl, hd⟩ := jsTrimR_decomp (jsTrimL l)
  have h1 : headOK (jsTrimL l) = true := headOK_dropWhile l
  rw [hd] at h1
  exact headOK_append_left _ tl h1

theorem lastOK_jsTrim (l : List Char) : lastOK (jsTrim l) = true := by
  show lastOK (jsTrimR (jsTrimL l)) = true
  simp only [lastOK, jsTrimR, List.getLast?_reverse]
  have := headOK_dropWhile (jsTrimL l).reverse
  simpa only [headOK] using this

/-- On a CR-free input, a normalized list satisfies every well-formedness
property that makes each normalization stage the identity. -/
theorem normalizeList_wf (l : List Char) (h : noCR l = true) :
    noCR (normalizeList l) = true ∧ wsOK false (normalizeList l) = true ∧
    nlOK 0 (normalizeList l) = true ∧ headOK (normalizeList l) = true ∧
    lastOK (normalizeList l) = true := by
  unfold normalizeList
  rw [replCRLF_id l h]
  refine ⟨?_, ?_, ?_, headOK_jsTrim _, lastOK_jsTrim _⟩
  · exact noCR_jsTrim _ (noCR_collapseNL _ 0 (noCR_collapseWS l false h))
  · exact wsOK_jsTrim _ (wsOK_collapseNL _ 0 false (by omega) (wsOK_collapseWS l false))
  · exact nlOK_jsTrim _ (nlOK_collapseNL _ 0)

/-- A well-formed list is a fixed point of normalization. -/
theorem normalizeList_id_of_wf (l : List Char) (h1 : noCR l = true) (h2 : wsOK false l = true)
    (h3 : nlOK 0 l = true) (h4 : headOK l = true) (h5 : lastOK l = true) :
    normalizeList l = l := by
  unfold normalizeList
  rw [replCRLF_id l h1, collapseWS_id l false h2, collapseNL_id l 0 h3, jsTrim_id l h4 h5]

/-- C9 (amended): `normalizeText` is idempotent on every string that contains
no carriage return; it is not idempotent in general, because replacing the
CRLF pairs of `"\r\r\n"` creates a fresh `"\r\n"` pair that only a second pass
rewrites (see the counterexample). -/
theorem claim_C9_normalize_idempotent (s : String) (h : noCR s.data = true) :
    normalizeText (normalizeText s) = normalizeText s := by
  obtain ⟨w1, w2, w3, w4, w5⟩ := normalizeList_wf s.data h
  show String.mk (normalizeList (normalizeList s.data)) = String.mk (normalizeList s.data)
  rw [normalizeList_id_of_wf _ w1 w2 w3 w4 w5]

theorem claim_C9_normalize_idempotent_witness :
    noCR ("a  b\n\n\n\nc").data = true ∧
    normalizeText (normalizeText "a  b\n\n\n\nc") = normalizeText "a  b\n\n\n\nc" :=
  ⟨by decide, claim_C9_normalize_idempotent "a  b\n\n\n\nc" (by decide)⟩

/-- C9 (counterexample to the claim as stated): normalization is not
idempotent on `"a\r\r\nb"`: the first pass turns it into `"a\r\nb"` (the CRLF
at positions 1-2 is replaced, leaving the preceding CR adjacent to the new
LF), and the second pass turns that into `"a\nb"`. -/
theorem claim_C9_counterexample :
    normalizeText "a\r\r\nb" = "a\r\nb" ∧
    normalizeText (normalizeText "a\r\r\nb") = "a\nb" ∧
    normalizeText (normalizeText "a\r\r\nb") ≠ normalizeText "a\r\r\nb" := by
  refine ⟨by decide, by decide, by decide⟩
